import Mathlib

/-!
Verification development for the spreadsheet-ingestion core of
`store-expense-visualizer-v2` (`src/services/sheetService.ts`).

The JavaScript functions are shallowly embedded as executable Lean
definitions:

* JS strings are modelled as `List Char` (`Str`).
* A JS `Date` value is modelled as `Option Int`: `some ts` is a valid date
  whose time value is `ts` minutes since the Unix epoch (the code never
  inspects seconds or milliseconds), `none` is an Invalid Date.  The host
  environment's local time zone is taken to be UTC, so local civil fields
  (`getFullYear`, `getMonth`, `getDate`) and `toISOString` agree on the
  civil date.
* A JS number produced by `parseFloat` is modelled by `JSNum`:
  `nan`, signed infinity, or an exact rational.  IEEE-754 rounding of the
  decimal literal is not modelled (it never affects the claims at issue,
  which only distinguish zero / nonzero / NaN / infinite results).
* `new Date()` ("now") is passed explicitly as a parameter `now : Int`.
-/

abbrev Str := List Char

/-- Coerce a Lean string literal to the `List Char` model of JS strings. -/
def strL (s : String) : Str := s.data

/-- The whitespace class trimmed by JS `String.prototype.trim` and matched
by the regex class `\s` (the code-point subset that can occur here). -/
def isJsWS (c : Char) : Bool :=
  c = ' ' || c = '\t' || c = '\n' || c = '\r' ||
  c = '\x0b' || c = '\x0c' || c.toNat = 160 || c.toNat = 65279

/-- JS `String.prototype.trim`. -/
def jsTrim (l : Str) : Str :=
  ((l.dropWhile isJsWS).reverse.dropWhile isJsWS).reverse

/-- JS `String.prototype.toLowerCase` (ASCII range; the Thai keywords used
by the code have no case). -/
def jsToLower (l : Str) : Str := l.map Char.toLower

/-- Decimal digit run to a natural number. -/
def digitsToNat (ds : Str) : Nat :=
  ds.foldl (fun a c => a * 10 + (c.toNat - 48)) 0

/-- JS `parseInt(s, 10)`: skip leading whitespace, optional sign, then the
longest leading digit run; no digits gives `NaN`, modelled as `none`.
Trailing junk is ignored. -/
def parseIntJS (l : Str) : Option Int :=
  let l1 := l.dropWhile isJsWS
  let (neg, l2) : Bool × Str :=
    match l1 with
    | '+' :: r => (false, r)
    | '-' :: r => (true, r)
    | _ => (false, l1)
  let ds := l2.takeWhile Char.isDigit
  if ds.isEmpty then none
  else some ((if neg then -1 else 1) * (digitsToNat ds : Int))

/-- An exact rational in lowest terms, used as the value of a finite JS
number.  (A bespoke normalized fraction rather than Mathlib's `ℚ`, so
that every operation reduces inside the kernel.) -/
structure QVal where
  num : Int
  den : Nat
deriving DecidableEq, Repr

/-- Build the normalized fraction `n / d` (for `d > 0`). -/
def qMk (n : Int) (d : Nat) : QVal :=
  let g := Nat.gcd n.natAbs d
  { num := Int.ediv n g, den := d / g }

/-- A JS number as produced by `parseFloat`.  The finite value is exact:
IEEE-754 rounding is not modelled (it never affects the claims at issue,
which only distinguish zero / nonzero / NaN / infinite results). -/
inductive JSNum where
  | nan : JSNum
  | infinite (neg : Bool) : JSNum
  | fin (q : QVal) : JSNum
deriving DecidableEq, Repr

/-- Does `pat` occur as a prefix of `l`? -/
def listStartsWith : Str → Str → Bool
  | [], _ => true
  | _ :: _, [] => false
  | p :: ps, c :: cs => p = c && listStartsWith ps cs

/-- Does `pat` occur as a contiguous substring of `l`?
(JS `String.prototype.includes`, and regex alternation over literals.) -/
def hasSub (pat : Str) : Str → Bool
  | [] => listStartsWith pat []
  | c :: rest => listStartsWith pat (c :: rest) || hasSub pat rest

/-- JS `String.prototype.split` with a single-character separator. -/
def splitOnChar (sep : Char) : Str → List Str
  | [] => [[]]
  | c :: rest =>
    if c = sep then [] :: splitOnChar sep rest
    else
      match splitOnChar sep rest with
      | [] => [[c]]
      | r :: rs => (c :: r) :: rs

/-- JS `parseFloat`: skip leading whitespace, optional sign, then the
longest valid decimal-literal prefix (`Infinity`, or
`digits [. digits] [e[±]digits]`); no valid prefix gives `NaN`.  The
numeric value is kept exact as a rational. -/
def parseFloatJS (l : Str) : JSNum :=
  let l1 := l.dropWhile isJsWS
  let (neg, l2) : Bool × Str :=
    match l1 with
    | '+' :: r => (false, r)
    | '-' :: r => (true, r)
    | _ => (false, l1)
  if listStartsWith (strL ("Infinity")) l2 then JSNum.infinite neg
  else
    let intDs := l2.takeWhile Char.isDigit
    let r1 := l2.dropWhile Char.isDigit
    let (fracDs, r2) : Str × Str :=
      match r1 with
      | '.' :: r => (r.takeWhile Char.isDigit, r.dropWhile Char.isDigit)
      | _ => ([], r1)
    if intDs.isEmpty && fracDs.isEmpty then JSNum.nan
    else
      let e : Int :=
        match r2 with
        | 'e' :: r3 => parseExpTail r3
        | 'E' :: r3 => parseExpTail r3
        | _ => 0
      let mantNum : Nat := digitsToNat intDs * 10 ^ fracDs.length + digitsToNat fracDs
      let signed : Int := (if neg then -1 else 1) * (mantNum : Int)
      JSNum.fin (if 0 ≤ e then qMk (signed * (10 : Int) ^ e.toNat) (10 ^ fracDs.length)
        else qMk signed (10 ^ fracDs.length * 10 ^ (-e).toNat))
where
  /-- Exponent suffix after `e`/`E`: optional sign then digits; an
  incomplete exponent is not consumed (contributes `0`). -/
  parseExpTail (r : Str) : Int :=
    let (eneg, r') : Bool × Str :=
      match r with
      | '+' :: t => (false, t)
      | '-' :: t => (true, t)
      | _ => (false, r)
    let eds := r'.takeWhile Char.isDigit
    if eds.isEmpty then 0
    else (if eneg then -1 else 1) * (digitsToNat eds : Int)

/-! ## Proleptic Gregorian calendar arithmetic (ECMAScript `MakeDay`). -/

/-- Days since 1970-01-01 of the civil date `(y, m, d)` with `m ∈ 1..12`
(Howard Hinnant's `days_from_civil`; `d` may be out of range, giving the
rolled-over day as in ECMAScript `MakeDay`). -/
def daysFromCivil (y m d : Int) : Int :=
  let y1 := if m ≤ 2 then y - 1 else y
  let era := Int.fdiv y1 400
  let yoe := y1 - era * 400
  let mp := Int.emod (m + 9) 12
  let doy := Int.fdiv (153 * mp + 2) 5 + d - 1
  let doe := yoe * 365 + Int.fdiv yoe 4 - Int.fdiv yoe 100 + doy
  era * 146097 + doe - 719468

/-- Inverse of `daysFromCivil`: civil `(year, month 1..12, day)` of a day
count since 1970-01-01. -/
def civilFromDays (z0 : Int) : Int × Int × Int :=
  let z := z0 + 719468
  let era := Int.fdiv z 146097
  let doe := z - era * 146097
  let yoe := Int.fdiv (doe - Int.fdiv doe 1460 + Int.fdiv doe 36524 - Int.fdiv doe 146096) 365
  let y := yoe + era * 400
  let doy := doe - (365 * yoe + Int.fdiv yoe 4 - Int.fdiv yoe 100)
  let mp := Int.fdiv (5 * doy + 2) 153
  let d := doy - Int.fdiv (153 * mp + 2) 5 + 1
  let m := mp + (if mp < 10 then 3 else -9)
  (if m ≤ 2 then y + 1 else y, m, d)

/-- JS `new Date(year, month0, day, hour, minute)` (components already
numbers; `none` anywhere means NaN).  Includes the two-digit-year quirk
(`0..99 ↦ 1900+y`), month normalization into the year, day rollover, and
the ±8.64e15 ms `TimeClip` bound.  Result in minutes since the epoch. -/
def mkDateJS (y m d : Option Int) (h mi : Int) : Option Int :=
  match y, m, d with
  | some y, some m, some d =>
    let yr := if 0 ≤ y ∧ y ≤ 99 then 1900 + y else y
    let ym := yr + Int.fdiv m 12
    let mr := Int.emod m 12
    let total := 1440 * (daysFromCivil ym (mr + 1) 1 + (d - 1)) + 60 * h + mi
    if total ≤ 144000000000 ∧ -144000000000 ≤ total then some total else none
  | _, _, _ => none

/-- JS `Date.prototype.getFullYear` (environment time zone UTC). -/
def getFullYear (ts : Int) : Int := (civilFromDays (Int.fdiv ts 1440)).1

/-- JS `Date.prototype.getMonth` (0-based). -/
def getMonth0 (ts : Int) : Int := (civilFromDays (Int.fdiv ts 1440)).2.1 - 1

/-- JS `Date.prototype.getDate`. -/
def getDate (ts : Int) : Int := (civilFromDays (Int.fdiv ts 1440)).2.2

/-- Number of days in a month of the Gregorian calendar. -/
def daysInMonth (y m : Int) : Int :=
  if m = 2 then
    if Int.emod y 4 = 0 ∧ (Int.emod y 100 ≠ 0 ∨ Int.emod y 400 = 0) then 29 else 28
  else if m = 4 ∨ m = 6 ∨ m = 9 ∨ m = 11 then 30
  else 31

/-- JS `new Date(string)` / `Date.parse`.  Modelled: the date-only ISO form
`YYYY-MM-DD` (with range validation, interpreted as UTC per ECMAScript).
Every other shape — whose handling is implementation-defined — is treated
as unparseable (`none`, an Invalid Date), matching the behaviour the
fallback branch of the source relies on. -/
def jsDateParseISO (l : Str) : Option Int :=
  match l with
  | [y1, y2, y3, y4, '-', m1, m2, '-', d1, d2] =>
    if (y1.isDigit && y2.isDigit && y3.isDigit && y4.isDigit &&
        m1.isDigit && m2.isDigit && d1.isDigit && d2.isDigit) then
      let y : Int := digitsToNat [y1, y2, y3, y4]
      let m : Int := digitsToNat [m1, m2]
      let d : Int := digitsToNat [d1, d2]
      if 1 ≤ m ∧ m ≤ 12 ∧ 1 ≤ d ∧ d ≤ daysInMonth y m then
        some (1440 * daysFromCivil y m d)
      else none
    else none
  | _ => none

/-! ## The delimited-text parser (`parseCSV`, sheetService.ts lines 6-48). -/

/-- Append a finished row unless it consists solely of empty cells
(`if (currentRow.some(cell => cell !== '')) rows.push(currentRow)`). -/
def rowFlush (row : List Str) (rows : List (List Str)) : List (List Str) :=
  if row.any (fun cell => !cell.isEmpty) then rows ++ [row] else rows

/-- End-of-input flush
(`if (currentVal || currentRow.length > 0) { ... }`). -/
def csvFinish (curVal : Str) (curRow : List Str) (rows : List (List Str)) :
    List (List Str) :=
  if !curVal.isEmpty || !curRow.isEmpty then
    rowFlush (curRow ++ [jsTrim curVal]) rows
  else rows

/-- Scanner state of `parseCSV`.  The source keeps a boolean `inQuotes`
flag plus a one-character lookahead for the doubled-quote escape
(`nextChar === '"'` with `i++`); the lookahead is modelled by the explicit
`afterQuote` state ("a quote was just read while inside a quoted field,
its interpretation is pending on the next character"). -/
inductive CsvSt where
  | plain : CsvSt
  | inQuotes : CsvSt
  | afterQuote : CsvSt
deriving DecidableEq, Repr

/-- The character scan of `parseCSV` (sheetService.ts lines 12-38): state
is the quote state, the current cell value, the current row, and the
accumulated rows. -/
def parseCSVAux (st : CsvSt) (curVal : Str) (curRow : List Str)
    (rows : List (List Str)) : Str → List (List Str)
  | [] => csvFinish curVal curRow rows
  | c :: rest =>
    match st with
    | CsvSt.inQuotes =>
      if c = '"' then parseCSVAux CsvSt.afterQuote curVal curRow rows rest
      else if c = '\r' then parseCSVAux CsvSt.inQuotes curVal curRow rows rest
      else parseCSVAux CsvSt.inQuotes (curVal ++ [c]) curRow rows rest
    | CsvSt.afterQuote =>
      if c = '"' then parseCSVAux CsvSt.inQuotes (curVal ++ ['"']) curRow rows rest
      else if c = ',' then
        parseCSVAux CsvSt.plain [] (curRow ++ [jsTrim curVal]) rows rest
      else if c = '\n' then
        parseCSVAux CsvSt.plain [] [] (rowFlush (curRow ++ [jsTrim curVal]) rows) rest
      else if c = '\r' then parseCSVAux CsvSt.plain curVal curRow rows rest
      else parseCSVAux CsvSt.plain (curVal ++ [c]) curRow rows rest
    | CsvSt.plain =>
      if c = '"' then parseCSVAux CsvSt.inQuotes curVal curRow rows rest
      else if c = ',' then
        parseCSVAux CsvSt.plain [] (curRow ++ [jsTrim curVal]) rows rest
      else if c = '\n' then
        parseCSVAux CsvSt.plain [] [] (rowFlush (curRow ++ [jsTrim curVal]) rows) rest
      else if c = '\r' then parseCSVAux CsvSt.plain curVal curRow rows rest
      else parseCSVAux CsvSt.plain (curVal ++ [c]) curRow rows rest

/-- `parseCSV` (sheetService.ts lines 6-48): robust CSV parser handling
quoted strings and commas inside fields; cells are trimmed, carriage
returns discarded, all-empty rows dropped. -/
def parseCSV (text : Str) : List (List Str) :=
  parseCSVAux CsvSt.plain [] [] [] text

/-! ## Amount and date normalisation (sheetService.ts lines 50-168). -/

/-- `amtStr.replace(/[฿, "]/g, '')`: strip baht sign, comma, space and
double-quote characters. -/
def stripCurrencyChars (l : Str) : Str :=
  l.filter (fun c => !(c = '฿' || c = ',' || c = ' ' || c = '"'))

/-- `clean.replace(/\s/g, '')`: strip all whitespace. -/
def stripSpaces (l : Str) : Str := l.filter (fun c => !isJsWS c)

/-- `cleanAmount` (sheetService.ts lines 163-168). -/
def cleanAmount (amtStr : Str) : JSNum :=
  if amtStr.isEmpty then JSNum.fin (qMk 0 1)
  else
    let clean := stripCurrencyChars amtStr
    let num := parseFloatJS (stripSpaces clean)
    if num = JSNum.nan then JSNum.fin (qMk 0 1) else num

/-- The 2-digit-year pivot shared by `extractDateFromText` (lines 72-76)
and `parseFlexibleDate` (lines 107-115, 133-137): a year under 100 is
expanded with a pivot at 40. -/
def pivotYear (yearPart : Int) : Int :=
  if yearPart < 100 then
    (if yearPart > 40 then 2500 + yearPart else 2000 + yearPart)
  else yearPart

/-- The Buddhist-Era normalisation shared by `extractDateFromText`
(line 79) and `parseFlexibleDate` (lines 142-145): a year above 2400 is
assumed BE and converted to AD. -/
def beToAd (year : Int) : Int :=
  if year > 2400 then year - 543 else year

/-- `formatToThaiDisplayDate` (sheetService.ts lines 51-58): render a date
as `DD/MM/` + Buddhist year; an Invalid Date renders as the empty
string. -/
def formatToThaiDisplayDate (dateObj : Option Int) : Str :=
  match dateObj with
  | none => []
  | some ts =>
    let c := civilFromDays (Int.fdiv ts 1440)
    let pad2 : Str → Str := fun s => if s.length < 2 then '0' :: s else s
    let render : Int → Str := fun i =>
      if i < 0 then '-' :: Nat.toDigits 10 i.natAbs else Nat.toDigits 10 i.natAbs
    pad2 (render c.2.2) ++ '/' :: pad2 (render c.2.1) ++ '/' :: render (c.1 + 543)

/-- Match the regex `(\d{1,2})SEP(\d{1,2})SEP(\d{2,4})` at the head of the
input, for a separator class `seps`; returns the three captured digit
groups.  (The third group captures greedily, at most 4 digits.) -/
def dmyAt (seps : List Char) (l : Str) : Option (Str × Str × Str) :=
  let (d1, r1) := l.span Char.isDigit
  if 1 ≤ d1.length ∧ d1.length ≤ 2 then
    match r1 with
    | s1 :: r2 =>
      if seps.contains s1 then
        let (d2, r3) := r2.span Char.isDigit
        if 1 ≤ d2.length ∧ d2.length ≤ 2 then
          match r3 with
          | s2 :: r4 =>
            if seps.contains s2 then
              let (d3, _) := r4.span Char.isDigit
              if 2 ≤ d3.length then some (d1, d2, d3.take 4) else none
            else none
          | [] => none
        else none
      else none
    | [] => none
  else none

/-- Leftmost match of `dmyAt` anywhere in the text (regex `.match` with an
unanchored pattern scans positions left to right). -/
def scanForDate (seps : List Char) : Str → Option (Str × Str × Str)
  | [] => none
  | c :: rest =>
    match dmyAt seps (c :: rest) with
    | some r => some r
    | none => scanForDate seps rest

/-- `extractDateFromText` (sheetService.ts lines 61-85): scan free text for
`DD/MM/YYYY` (also `-` or `.` separated), pivot a 2-digit year, convert BE
to AD, and build the date at midnight; no match, or an invalid resulting
date, gives `null` (`none`). -/
def extractDateFromText (text : Str) : Option Int :=
  match scanForDate ['/', '.', '-'] text with
  | none => none
  | some (g1, g2, g3) =>
    let day := parseIntJS g1
    let month := (parseIntJS g2).map (fun m => m - 1)
    let year := (parseIntJS g3).map (fun y => beToAd (pivotYear y))
    mkDateJS year month day 0 0

/-- `parseFlexibleDate` (sheetService.ts lines 89-161): parse a date cell
(slash `D/M/Y`, ISO `YYYY-MM-DD`, or dash `D-M-Y`) plus an `HH:MM` time
cell; the empty date string yields the current instant; unparseable
numeric components yield an Invalid Date (`none`). -/
def parseFlexibleDate (dateStr timeStr : Str) (now : Int) : Option Int :=
  if dateStr.isEmpty then some now
  else
    let cleanDate := jsTrim dateStr
    let defaults : Option Int × Option Int × Option Int :=
      (some (getFullYear now), some 0, some 1)
    let ymd : Option Int × Option Int × Option Int :=
      if cleanDate.contains '/' then
        match splitOnChar '/' cleanDate with
        | [p0, p1, p2] =>
          ((parseIntJS p2).map pivotYear, (parseIntJS p1).map (fun m => m - 1),
            parseIntJS p0)
        | _ => defaults
      else if cleanDate.contains '-' then
        match jsDateParseISO cleanDate with
        | some d => (some (getFullYear d), some (getMonth0 d), some (getDate d))
        | none =>
          match splitOnChar '-' cleanDate with
          | [p0, p1, p2] =>
            ((parseIntJS p2).map pivotYear, (parseIntJS p1).map (fun m => m - 1),
              parseIntJS p0)
          | _ => defaults
      else defaults
    let year := ymd.1.map beToAd
    let (hour, minute) : Int × Int :=
      match splitOnChar ':' (jsTrim timeStr) with
      | t0 :: t1 :: _ => ((parseIntJS t0).getD 0, (parseIntJS t1).getD 0)
      | _ => (0, 0)
    mkDateJS year ymd.2.1 ymd.2.2 hour minute

/-! ## Column role inference (sheetService.ts lines 245-283). -/

/-- JS `Array.prototype.findIndex`: first index satisfying `p`, or `-1`. -/
def findIndexI (p : α → Bool) (l : List α) : Int :=
  match l.findIdx? p with
  | some n => (n : Int)
  | none => -1

/-- Header keyword test for the amount column:
`/amount|จำนวน|ราคา|ยอด|price|cost|expense|จ่าย/i`. -/
def matchAmtKw (h : Str) : Bool :=
  let hl := jsToLower h
  hasSub (strL ("amount")) hl || hasSub (strL ("จำนวน")) hl ||
  hasSub (strL ("ราคา")) hl || hasSub (strL ("ยอด")) hl ||
  hasSub (strL ("price")) hl || hasSub (strL ("cost")) hl ||
  hasSub (strL ("expense")) hl || hasSub (strL ("จ่าย")) hl

/-- Header keyword test for the date column:
`/date|วันที่|ว\.ด\.ป|วัน|time|timestamp|เวลา/i`.  Note that the set
includes the time-related words `time`, `timestamp` and `เวลา`. -/
def matchDateKw (h : Str) : Bool :=
  let hl := jsToLower h
  hasSub (strL ("date")) hl || hasSub (strL ("วันที่")) hl ||
  hasSub (strL ("ว.ด.ป")) hl || hasSub (strL ("วัน")) hl ||
  hasSub (strL ("time")) hl || hasSub (strL ("timestamp")) hl ||
  hasSub (strL ("เวลา")) hl

/-- Header test for the time column: `h.includes('time') || h.includes('เวลา')`. -/
def matchTimeKw (h : Str) : Bool :=
  hasSub (strL ("time")) h || hasSub (strL ("เวลา")) h

/-- Header test for the note column. -/
def matchNoteKw (h : Str) : Bool :=
  hasSub (strL ("note")) h || hasSub (strL ("บันทึก")) h ||
  hasSub (strL ("รายการ")) h || hasSub (strL ("description")) h

/-- Header test for the receiver/category column. -/
def matchRecvKw (h : Str) : Bool :=
  hasSub (strL ("receiver")) h || hasSub (strL ("ผู้รับ")) h ||
  hasSub (strL ("category")) h || hasSub (strL ("หมวด")) h

/-- Keyword-tier column index for the amount role (line 248). -/
def kwAmtIdx (headers : List Str) : Int := findIndexI matchAmtKw headers

/-- Keyword-tier column index for the date role (line 249). -/
def kwDateIdx (headers : List Str) : Int := findIndexI matchDateKw headers

/-- Keyword-tier column index for the time role (line 250). -/
def kwTimeIdx (headers : List Str) : Int := findIndexI matchTimeKw headers

/-- Keyword-tier column index for the note role (line 251). -/
def kwNoteIdx (headers : List Str) : Int := findIndexI matchNoteKw headers

/-- Keyword-tier column index for the receiver role (line 252). -/
def kwRecvIdx (headers : List Str) : Int := findIndexI matchRecvKw headers

/-- Sniffing regex for dates
(1-2 digits, slash-or-dash, 1-2 digits, slash-or-dash, 2-4 digits,
anchored; or 4 digits, slash-or-dash, 1-2 digits, slash-or-dash, 1-2
digits, unanchored).
The `^` anchor binds only to the first alternative, so the second
alternative may match anywhere. -/
def ymdAt (l : Str) : Bool :=
  let (d1, r1) := l.span Char.isDigit
  d1.length = 4 &&
  match r1 with
  | s1 :: r2 =>
    (s1 = '/' || s1 = '-') &&
    (let (d2, r3) := r2.span Char.isDigit
     (d2.length = 1 || d2.length = 2) &&
     match r3 with
     | s2 :: r4 =>
       (s2 = '/' || s2 = '-') && decide (1 ≤ (r4.span Char.isDigit).1.length)
     | [] => false)
  | [] => false

/-- Second alternative of the sniffing date regex, unanchored. -/
def anyYmd : Str → Bool
  | [] => false
  | c :: rest => ymdAt (c :: rest) || anyYmd rest

/-- The sniffing date pattern test (line 258). -/
def datePatTest (l : Str) : Bool :=
  (dmyAt ['/', '-'] l).isSome || anyYmd l

/-- The sniffing amount pattern test `/^["']?[\d,.]+["']?$/` (line 260). -/
def numPatTest (l : Str) : Bool :=
  let l1 := match l with
    | c :: rest => if c = '"' || c = '\'' then rest else c :: rest
    | [] => []
  let l2 := match l1.getLast? with
    | some c => if c = '"' || c = '\'' then l1.dropLast else l1
    | none => l1
  !l2.isEmpty && l2.all (fun c => c.isDigit || c = ',' || c = '.')

/-- One step of the sniffing `forEach` over the first data row
(lines 262-274): a pending date slot is filled by a date-shaped cell
containing `/` or `-`; a pending amount slot by a numeric-shaped cell. -/
def sniffStep (st : Int × Int) (cell : Nat × Str) : Int × Int :=
  let val := jsTrim cell.2
  let dI := if st.1 = -1 ∧ datePatTest val ∧ (val.contains '/' || val.contains '-')
    then (cell.1 : Int) else st.1
  let aI := if st.2 = -1 ∧ numPatTest val ∧ val.length > 0
    then (cell.1 : Int) else st.2
  (dI, aI)

/-- The `(dateIdx, amtIdx)` pair after the keyword tier and the
conditional sniffing tier (lines 248-275). -/
def sniffPair (headers : List Str) (rows : List (List Str)) : Int × Int :=
  let dateIdx := kwDateIdx headers
  let amtIdx := kwAmtIdx headers
  if (dateIdx = -1 ∨ amtIdx = -1) ∧ rows.length > 1 then
    ((rows.get? 1).getD []).enum.foldl sniffStep (dateIdx, amtIdx)
  else (dateIdx, amtIdx)

/-- The resolved role map. -/
structure RoleIdx where
  amtIdx : Int
  dateIdx : Int
  timeIdx : Int
  noteIdx : Int
  receiverIdx : Int
deriving DecidableEq, Repr

/-- Full three-tier column role inference (sheetService.ts lines 245-283):
keyword match, then content sniffing for date/amount, then the fixed
positional fallbacks (amount→3, date→4, time→5, note→6, receiver→2). -/
def inferRoles (headers : List Str) (rows : List (List Str)) : RoleIdx :=
  let p := sniffPair headers rows
  let timeIdx := kwTimeIdx headers
  let noteIdx := kwNoteIdx headers
  let receiverIdx := kwRecvIdx headers
  { amtIdx := if p.2 = -1 then 3 else p.2
    dateIdx := if p.1 = -1 then 4 else p.1
    timeIdx := if timeIdx = -1 then 5 else timeIdx
    noteIdx := if noteIdx = -1 then 6 else noteIdx
    receiverIdx := if receiverIdx = -1 then 2 else receiverIdx }

/-! ## The record builder (sheetService.ts lines 285-345). -/

/-- A JS array read `row[i] || ''`: an out-of-range index (`undefined`) and
the empty string both collapse to the empty string. -/
def getCell (row : List Str) (i : Int) : Str :=
  if h : 0 ≤ i ∧ i.toNat < row.length then row.get ⟨i.toNat, h.2⟩ else []

/-- The amount cell with its `|| '0'` default (line 300). -/
def amtCell (row : List Str) (roles : RoleIdx) : Str :=
  let c := getCell row roles.amtIdx
  if c.isEmpty then strL ("0") else c

/-- Date resolution precedence (lines 307-315): the sheet-name override
date, when present, is used verbatim (a copy of the same instant);
otherwise the row's own date/time cells are resolved. -/
def resolveRowDate (override : Option Int) (dateStr timeStr : Str) (now : Int) :
    Option Int :=
  match override with
  | some d => some d
  | none => parseFlexibleDate dateStr timeStr now

/-- The normalized output record (the `Transaction` shape of the source;
`date` holds the instant serialized by `toISOString`). -/
structure Transaction where
  id : Str
  date : Int
  displayDate : Str
  category : Str
  amount : JSNum
  description : Str
  sheetSourceIndex : Nat
  sourceName : Str
deriving DecidableEq, Repr

/-- Outcome of the per-row loop body (lines 292-343): a short row is
passed over, a row may be skipped by the skip rule, emitted as a record,
or may throw (`dateObj.toISOString()` on an Invalid Date raises a
`RangeError`, which escapes to the outer catch). -/
inductive RowOutcome where
  | short : RowOutcome
  | skipped : RowOutcome
  | threw : RowOutcome
  | emitted (t : Transaction) : RowOutcome
deriving DecidableEq, Repr

/-- The literal `sheet-${sourceIndex}-row-${i}` id. -/
def rowId (sourceIndex i : Nat) : Str :=
  strL ("sheet-") ++ Nat.toDigits 10 sourceIndex ++ strL ("-row-") ++ Nat.toDigits 10 i

/-- The loop body of `fetchSheetData` for one row (lines 292-343). -/
def processRow (roles : RoleIdx) (override : Option Int) (sourceIndex : Nat)
    (sheetName : Str) (now : Int) (i : Nat) (row : List Str) : RowOutcome :=
  if row.length < 2 then RowOutcome.short
  else
    let dateStr := getCell row roles.dateIdx
    let timeStr := getCell row roles.timeIdx
    let noteStr := getCell row roles.noteIdx
    let receiverStr := getCell row roles.receiverIdx
    let amount := cleanAmount (amtCell row roles)
    if dateStr.isEmpty ∧ amount = JSNum.fin (qMk 0 1) then RowOutcome.skipped
    else
      match resolveRowDate override dateStr timeStr now with
      | none => RowOutcome.threw
      | some ts =>
        let description1 :=
          if !noteStr.isEmpty then
            (if !receiverStr.isEmpty then receiverStr ++ strL (" - ") ++ noteStr
             else noteStr)
          else receiverStr
        let description2 :=
          if description1.isEmpty then strL ("ไม่ระบุรายละเอียด") else description1
        let category0 :=
          if !noteStr.isEmpty then noteStr else strL ("อื่นๆ (Others)")
        let catdesc : Str × Str :=
          if !receiverStr.isEmpty ∧ receiverStr.length < 30 then
            (receiverStr, if !noteStr.isEmpty then noteStr else description2)
          else (category0, description2)
        RowOutcome.emitted
          { id := rowId sourceIndex i
            date := ts
            displayDate := formatToThaiDisplayDate (some ts)
            category := catdesc.1
            amount := amount
            description := catdesc.2
            sheetSourceIndex := sourceIndex
            sourceName := sheetName }

/-- The data-row loop (lines 292-343), with the exception semantics of the
surrounding `try`: `none` means a row threw and the whole batch is lost. -/
def buildRows (roles : RoleIdx) (override : Option Int) (sourceIndex : Nat)
    (sheetName : Str) (now : Int) : Nat → List (List Str) → Option (List Transaction)
  | _, [] => some []
  | i, row :: rest =>
    match processRow roles override sourceIndex sheetName now i row with
    | RowOutcome.threw => none
    | RowOutcome.emitted t =>
      (buildRows roles override sourceIndex sheetName now (i + 1) rest).map
        (fun l => t :: l)
    | _ => buildRows roles override sourceIndex sheetName now (i + 1) rest

/-- The parsing part of `fetchSheetData` (sheetService.ts lines 240-350),
from the fetched CSV text to the transaction list: parse, infer roles,
compute the sheet-name date override, build records; any exception inside
the `try` yields `[]` for the source. -/
def fetchSheetDataCore (csvText : Str) (sourceIndex : Nat) (sheetName : Str)
    (now : Int) : List Transaction :=
  let rows := parseCSV csvText
  if rows.length = 0 then []
  else
    let headers := (rows.headD []).map (fun h => jsTrim (jsToLower h))
    let roles := inferRoles headers rows
    let sheetDateOverride := extractDateFromText sheetName
    match buildRows roles sheetDateOverride sourceIndex sheetName now 1 (rows.drop 1) with
    | none => []
    | some ts => ts

/-! ## Standard CSV serialization (for the round-trip property §8). -/

/-- Double every quote character (the standard CSV escaping convention). -/
def escQuotes : Str → Str
  | [] => []
  | c :: rest =>
    if c = '"' then '"' :: '"' :: escQuotes rest else c :: escQuotes rest

/-- Quote a cell per the standard convention: cells containing a comma, a
quote or a newline are wrapped in quotes with inner quotes doubled. -/
def quoteCell (c : Str) : Str :=
  if c.contains ',' || c.contains '"' || c.contains '\n' then
    '"' :: (escQuotes c ++ ['"'])
  else c

/-- Serialize one row of cells per the standard CSV convention. -/
def serializeRow : List Str → Str
  | [] => []
  | [c] => quoteCell c
  | c :: rest => quoteCell c ++ ',' :: serializeRow rest

/-! ## Claims. -/

/-- Claim C1 (code bug): a malformed date cell is NOT merely defaulted —
`parseFlexibleDate` yields an Invalid Date for `a/1/2024`, and
`dateObj.toISOString()` then throws, so the outer catch returns `[]` for
the whole source: the result for the source IS cut short by one bad row
(the well-formed second row is lost), contradicting the claim.  The same
CSV without the bad row does produce a record. -/
theorem C1_bad_row_aborts_source :
    fetchSheetDataCore (strL ("date,amount\na/1/2024,100\n01/01/2024,50")) 0 [] 0 = []
      ∧ fetchSheetDataCore (strL ("date,amount\n01/01/2024,50")) 0 [] 0 ≠ [] := by
  exact ⟨by decide, by decide⟩

/-- Claim C2, counterexample: `31/04/2024` names a calendar date that does
not exist (day 31 of a 30-day month), yet with the current instant `0` the
resolver returns the rolled-over date 2024-05-01 00:00 (minute 28575360),
not the current instant. -/
theorem C2_counterexample :
    parseFlexibleDate (strL ("31/04/2024")) (strL ("00:00")) 0 = some 28575360
      ∧ (28575360 : Int) ≠ 0 := by
  exact ⟨by decide, by decide⟩

/-- Claim C2 (amended): `parseFlexibleDate` is a total function (it never
raises — an unparseable numeric component yields an Invalid Date *value*,
not an exception), and the empty date string returns the current instant;
but other invalid inputs are not mapped to the current instant: a
nonexistent calendar date rolls over into the following month, and
numerically unparseable slash components yield an Invalid Date. -/
theorem C2_flexible_date_defaults :
    (∀ (t : Str) (now : Int), parseFlexibleDate [] t now = some now)
    ∧ parseFlexibleDate (strL ("31/04/2024")) (strL ("00:00")) 0 = some 28575360
    ∧ (∀ now : Int, parseFlexibleDate (strL ("a/b/c")) (strL ("00:00")) now = none) := by
  refine ⟨fun t now => rfl, by decide, fun now => rfl⟩

/-- Claim C3, counterexample: `cleanAmount "Infinity"` returns positive
infinity — a non-finite value — not `0`; only a NaN parse result is
coerced to `0`. -/
theorem C3_counterexample :
    cleanAmount (strL ("Infinity")) = JSNum.infinite false
      ∧ JSNum.infinite false ≠ JSNum.fin (qMk 0 1) := by
  exact ⟨by decide, by decide⟩

/-- Claim C3 (amended): `cleanAmount` never raises and never returns NaN;
an empty or non-numeric remainder (anything `parseFloat` maps to NaN,
including the empty string and garbage text) yields exactly `0`; but a
remainder spelling out a non-finite number (`Infinity`) is returned as is,
so the result is not always finite. -/
theorem C3_clean_amount_soft (s : Str) :
    cleanAmount s ≠ JSNum.nan
    ∧ (parseFloatJS (stripSpaces (stripCurrencyChars s)) = JSNum.nan →
        cleanAmount s = JSNum.fin (qMk 0 1)) := by
  constructor
  · simp only [cleanAmount]
    split_ifs with h1 h2
    · decide
    · decide
    · exact h2
  · intro h
    simp only [cleanAmount]
    split_ifs
    · rfl
    · rfl

/-- Witness for C3 at a concrete garbage input. -/
theorem C3_witness : cleanAmount (strL ("abc")) = JSNum.fin (qMk 0 1) :=
  (C3_clean_amount_soft (strL ("abc"))).2 (by decide)

/-- Claim C7: the 2-digit-year pivot (41-99 to Buddhist 25xx, 0-40 to
Gregorian 20xx) composed with the era normalisation (above 2400 minus
543); `68` resolves to Gregorian 2025, `24` to 2024, and `09/01/2569`
resolves to the same instant as `09/01/2026` for every current instant. -/
theorem C7_two_digit_pivot_and_era :
    (∀ y : Int, 41 ≤ y → y ≤ 99 → beToAd (pivotYear y) = 1957 + y)
    ∧ (∀ y : Int, 0 ≤ y → y ≤ 40 → beToAd (pivotYear y) = 2000 + y)
    ∧ (parseFlexibleDate (strL ("1/1/68")) (strL ("00:00")) 0).map getFullYear = some 2025
    ∧ (parseFlexibleDate (strL ("1/1/24")) (strL ("00:00")) 0).map getFullYear = some 2024
    ∧ (∀ now : Int, parseFlexibleDate (strL ("09/01/2569")) (strL ("00:00")) now
        = parseFlexibleDate (strL ("09/01/2026")) (strL ("00:00")) now) := by
  refine ⟨?_, ?_, by decide, by decide, fun now => rfl⟩
  · intro y h1 h2
    unfold pivotYear beToAd
    split_ifs <;> omega
  · intro y h1 h2
    unfold pivotYear beToAd
    split_ifs <;> omega

/-- Witness for C7 at the concrete years 68 and 24. -/
theorem C7_witness :
    beToAd (pivotYear 68) = 2025 ∧ beToAd (pivotYear 24) = 2024 := by
  constructor
  · have h := C7_two_digit_pivot_and_era.1 68 (by decide) (by decide)
    norm_num at h
    exact h
  · have h := C7_two_digit_pivot_and_era.2.1 24 (by decide) (by decide)
    norm_num at h
    exact h

/-- Header list of claim C10 after the `toLowerCase().trim()` processing. -/
def hdrsC10 : List Str :=
  ([strL ("Time"), strL ("Date")]).map (fun h => jsTrim (jsToLower h))

/-- Parsed rows of claim C10. -/
def rowsC10 : List (List Str) :=
  [[strL ("Time"), strL ("Date")], [strL ("x"), strL ("y")]]

/-- Claim C10: the date-role keyword set also matches the time-related
header words `time`, `timestamp` and `เวลา`; on the header row
`["Time", "Date"]` both the date role and the time role resolve to column
0 (the Time column) and the column actually headed `Date` (index 1) is not
selected for the date role. -/
theorem C10_time_word_captures_date_role :
    matchDateKw (strL ("time")) = true
    ∧ matchDateKw (strL ("timestamp")) = true
    ∧ matchDateKw (strL ("เวลา")) = true
    ∧ (inferRoles hdrsC10 rowsC10).dateIdx = 0
    ∧ (inferRoles hdrsC10 rowsC10).timeIdx = 0
    ∧ (inferRoles hdrsC10 rowsC10).dateIdx ≠ 1 := by
  exact ⟨by decide, by decide, by decide, by decide, by decide, by decide⟩

/-- A date built by `mkDateJS` with hour and minute `0` falls on a day
boundary: its time value is a multiple of 1440 minutes. -/
theorem mkDateJS_midnight (y m d : Option Int) (ts : Int)
    (h : mkDateJS y m d 0 0 = some ts) : Int.emod ts 1440 = 0 := by
  match y, m, d with
  | some y, some m, some d =>
    simp only [mkDateJS] at h
    split_ifs at h <;>
      (injection h with h; subst h; norm_num; exact Int.mul_emod_right 1440 _)
  | none, _, _ => exact absurd h (by simp [mkDateJS])
  | some _, none, _ => exact absurd h (by simp [mkDateJS])
  | some _, some _, none => exact absurd h (by simp [mkDateJS])

/-- Claim C9: whenever the sheet-name override applies, the override date
produced by `extractDateFromText` is a midnight instant (time-of-day
00:00); the override branch of the per-row date resolution ignores the
row's time cell entirely; and the time cell is consulted (via
`parseFlexibleDate`) only when the override does not apply. -/
theorem C9_override_is_midnight_and_ignores_time :
    (∀ (label : Str) (ts : Int), extractDateFromText label = some ts →
        Int.emod ts 1440 = 0)
    ∧ (∀ (d : Int) (ds t1 t2 : Str) (now : Int),
        resolveRowDate (some d) ds t1 now = resolveRowDate (some d) ds t2 now)
    ∧ (∀ (ds t : Str) (now : Int),
        resolveRowDate none ds t now = parseFlexibleDate ds t now) := by
  refine ⟨?_, fun d ds t1 t2 now => rfl, fun ds t now => rfl⟩
  intro label ts h
  unfold extractDateFromText at h
  cases hscan : scanForDate ['/', '.', '-'] label with
  | none => rw [hscan] at h; exact absurd h (by simp)
  | some g =>
    rw [hscan] at h
    exact mkDateJS_midnight _ _ _ _ h

/-- Witness for C9: the label `01/02/2569` carries a recognizable date and
its extracted instant (1 Feb 2026, minute 29498400) is a midnight. -/
theorem C9_witness :
    extractDateFromText (strL ("01/02/2569")) = some 29498400
      ∧ Int.emod 29498400 1440 = 0 :=
  ⟨by decide,
   C9_override_is_midnight_and_ignores_time.1 (strL ("01/02/2569")) 29498400 (by decide)⟩

/-- A row processed under an applicable sheet-name override is emitted, if
at all, with the override instant as its date. -/
theorem processRow_override_date (roles : RoleIdx) (d : Int) (srcIdx : Nat)
    (label : Str) (now : Int) (i : Nat) (row : List Str) (t : Transaction)
    (h : processRow roles (some d) srcIdx label now i row = RowOutcome.emitted t) :
    t.date = d := by
  unfold processRow at h
  by_cases hlen : row.length < 2
  · rw [if_pos hlen] at h; exact absurd h (by simp)
  · rw [if_neg hlen] at h
    by_cases hskip : List.isEmpty (getCell row roles.dateIdx) = true
        ∧ cleanAmount (amtCell row roles) = JSNum.fin (qMk 0 1)
    · rw [if_pos hskip] at h; exact absurd h (by simp)
    · rw [if_neg hskip] at h
      injection h with h
      rw [← h]

/-- Under an applicable override, every transaction produced by the row
loop carries the override instant. -/
theorem buildRows_override_date (roles : RoleIdx) (d : Int) (srcIdx : Nat)
    (label : Str) (now : Int) :
    ∀ (rows : List (List Str)) (i : Nat) (res : List Transaction),
      buildRows roles (some d) srcIdx label now i rows = some res →
      ∀ t ∈ res, t.date = d := by
  intro rows
  induction rows with
  | nil =>
    intro i res h t ht
    simp only [buildRows] at h
    injection h with h
    rw [← h] at ht
    exact absurd ht (by simp)
  | cons row rest ih =>
    intro i res h t ht
    simp only [buildRows] at h
    cases hp : processRow roles (some d) srcIdx label now i row with
    | threw => rw [hp] at h; exact absurd h (by simp)
    | emitted t' =>
      rw [hp] at h
      simp only [Option.map_eq_some'] at h
      obtain ⟨l, hl, hres⟩ := h
      rw [← hres] at ht
      cases ht with
      | head => exact processRow_override_date roles d srcIdx label now i row t hp
      | tail _ hmem => exact ih (i + 1) l hl t hmem
    | short => rw [hp] at h; exact ih (i + 1) res h t ht
    | skipped => rw [hp] at h; exact ih (i + 1) res h t ht

/-- Claim C4: if the source label contains a recognizable day-month-year
date (the free-text scan succeeds), that date is used as the instant of
every record produced from the source, overriding each row's own date
cell entirely. -/
theorem C4_sheet_label_overrides_row_dates (csvText : Str) (sourceIndex : Nat)
    (sheetName : Str) (now : Int) (d : Int)
    (h : extractDateFromText sheetName = some d) :
    ∀ t ∈ fetchSheetDataCore csvText sourceIndex sheetName now, t.date = d := by
  intro t ht
  simp only [fetchSheetDataCore, h] at ht
  split_ifs at ht with h0
  · exact absurd ht (by simp)
  · split at ht
    · exact absurd ht (by simp)
    · rename_i l hb
      exact buildRows_override_date _ _ _ _ _ _ _ _ hb t ht

/-- The CSV payload of the C4 witness: a source whose rows carry the date
cell `01/01/2020`. -/
def csvC4 : Str := strL ("x,y\n01/01/2020,100")

/-- The source label of the C4 witness: `25/12/2568` (25 Dec 2568 BE). -/
def lblC4 : Str := strL ("25/12/2568")

/-- The record produced from `csvC4` under the label `lblC4`. -/
def tC4 : Transaction :=
  { id := strL ("sheet-0-row-1")
    date := 29443680
    displayDate := strL ("25/12/2568")
    category := strL ("อื่นๆ (Others)")
    amount := JSNum.fin (qMk 100 1)
    description := strL ("ไม่ระบุรายละเอียด")
    sheetSourceIndex := 0
    sourceName := strL ("25/12/2568") }

/-- Witness for C4: a source labeled `25/12/2568` with a row dated
`01/01/2020` produces a record whose instant is minute 29443680, i.e.
25 Dec 2025 00:00 (Buddhist year 2568 converted to Gregorian), ignoring
the row's own date cell. -/
theorem C4_witness : tC4.date = 29443680 :=
  C4_sheet_label_overrides_row_dates csvC4 0 lblC4 0 29443680 (by decide) tC4
    (by have h : fetchSheetDataCore csvC4 0 lblC4 0 = [tC4] := by decide
        rw [h]
        exact List.mem_singleton_self _)

/-- `findIndex` returns `-1` or a valid (nonnegative) index. -/
theorem findIndexI_dom (p : α → Bool) (l : List α) :
    findIndexI p l = -1 ∨ 0 ≤ findIndexI p l := by
  unfold findIndexI
  cases l.findIdx? p <;> simp

/-- The sniffing pass never overwrites an already-resolved date slot. -/
theorem sniffFold_fst_keep (cells : List (Nat × Str)) :
    ∀ st : Int × Int, st.1 ≠ -1 → (cells.foldl sniffStep st).1 = st.1 := by
  induction cells with
  | nil => intro st _; rfl
  | cons c cs ih =>
    intro st h
    have hstep : (sniffStep st c).1 = st.1 := by
      simp only [sniffStep]
      rw [if_neg (fun hc => h hc.1)]
    simp only [List.foldl_cons]
    rw [ih (sniffStep st c) (by rw [hstep]; exact h), hstep]

/-- The sniffing pass never overwrites an already-resolved amount slot. -/
theorem sniffFold_snd_keep (cells : List (Nat × Str)) :
    ∀ st : Int × Int, st.2 ≠ -1 → (cells.foldl sniffStep st).2 = st.2 := by
  induction cells with
  | nil => intro st _; rfl
  | cons c cs ih =>
    intro st h
    have hstep : (sniffStep st c).2 = st.2 := by
      simp only [sniffStep]
      rw [if_neg (fun hc => h hc.1)]
    simp only [List.foldl_cons]
    rw [ih (sniffStep st c) (by rw [hstep]; exact h), hstep]

/-- After sniffing, the date slot is still `-1` or a valid index. -/
theorem sniffFold_fst_dom (cells : List (Nat × Str)) :
    ∀ st : Int × Int, st.1 = -1 ∨ 0 ≤ st.1 →
      (cells.foldl sniffStep st).1 = -1 ∨ 0 ≤ (cells.foldl sniffStep st).1 := by
  induction cells with
  | nil => intro st h; exact h
  | cons c cs ih =>
    intro st h
    simp only [List.foldl_cons]
    apply ih
    simp only [sniffStep]
    split_ifs
    · exact Or.inr (Int.natCast_nonneg _)
    · exact h

/-- After sniffing, the amount slot is still `-1` or a valid index. -/
theorem sniffFold_snd_dom (cells : List (Nat × Str)) :
    ∀ st : Int × Int, st.2 = -1 ∨ 0 ≤ st.2 →
      (cells.foldl sniffStep st).2 = -1 ∨ 0 ≤ (cells.foldl sniffStep st).2 := by
  induction cells with
  | nil => intro st h; exact h
  | cons c cs ih =>
    intro st h
    simp only [List.foldl_cons]
    apply ih
    simp only [sniffStep]
    split_ifs
    · exact Or.inr (Int.natCast_nonneg _)
    · exact h

/-- A date column found by keyword match survives the sniffing tier. -/
theorem sniffPair_fst_keep (headers : List Str) (rows : List (List Str))
    (h : kwDateIdx headers ≠ -1) : (sniffPair headers rows).1 = kwDateIdx headers := by
  simp only [sniffPair]
  split_ifs
  · exact sniffFold_fst_keep _ _ h
  · rfl

/-- An amount column found by keyword match survives the sniffing tier. -/
theorem sniffPair_snd_keep (headers : List Str) (rows : List (List Str))
    (h : kwAmtIdx headers ≠ -1) : (sniffPair headers rows).2 = kwAmtIdx headers := by
  simp only [sniffPair]
  split_ifs
  · exact sniffFold_snd_keep _ _ h
  · rfl

/-- After tiers 1-2 the date slot is `-1` or a valid index. -/
theorem sniffPair_fst_dom (headers : List Str) (rows : List (List Str)) :
    (sniffPair headers rows).1 = -1 ∨ 0 ≤ (sniffPair headers rows).1 := by
  simp only [sniffPair]
  split_ifs
  · exact sniffFold_fst_dom _ _ (findIndexI_dom _ _)
  · exact findIndexI_dom _ _

/-- After tiers 1-2 the amount slot is `-1` or a valid index. -/
theorem sniffPair_snd_dom (headers : List Str) (rows : List (List Str)) :
    (sniffPair headers rows).2 = -1 ∨ 0 ≤ (sniffPair headers rows).2 := by
  simp only [sniffPair]
  split_ifs
  · exact sniffFold_snd_dom _ _ (findIndexI_dom _ _)
  · exact findIndexI_dom _ _

/-- Claim C6: role inference always yields an index for all five roles; a
role resolved by keyword match is never overwritten by content sniffing;
and any role still unresolved after keyword matching and sniffing receives
the fixed default index (category→2, amount→3, date→4, time→5, note→6). -/
theorem C6_role_inference (headers : List Str) (rows : List (List Str)) :
    (0 ≤ (inferRoles headers rows).amtIdx
      ∧ 0 ≤ (inferRoles headers rows).dateIdx
      ∧ 0 ≤ (inferRoles headers rows).timeIdx
      ∧ 0 ≤ (inferRoles headers rows).noteIdx
      ∧ 0 ≤ (inferRoles headers rows).receiverIdx)
    ∧ (kwAmtIdx headers ≠ -1 → (inferRoles headers rows).amtIdx = kwAmtIdx headers)
    ∧ (kwDateIdx headers ≠ -1 → (inferRoles headers rows).dateIdx = kwDateIdx headers)
    ∧ ((sniffPair headers rows).2 = -1 → (inferRoles headers rows).amtIdx = 3)
    ∧ ((sniffPair headers rows).1 = -1 → (inferRoles headers rows).dateIdx = 4)
    ∧ (kwTimeIdx headers = -1 → (inferRoles headers rows).timeIdx = 5)
    ∧ (kwNoteIdx headers = -1 → (inferRoles headers rows).noteIdx = 6)
    ∧ (kwRecvIdx headers = -1 → (inferRoles headers rows).receiverIdx = 2) := by
  simp only [inferRoles]
  refine ⟨⟨?_, ?_, ?_, ?_, ?_⟩, ?_, ?_, ?_, ?_, ?_, ?_, ?_⟩
  · rcases sniffPair_snd_dom headers rows with h | h
    · rw [if_pos h]; decide
    · rw [if_neg (by omega)]; exact h
  · rcases sniffPair_fst_dom headers rows with h | h
    · rw [if_pos h]; decide
    · rw [if_neg (by omega)]; exact h
  · have h2 : kwTimeIdx headers = -1 ∨ 0 ≤ kwTimeIdx headers :=
      findIndexI_dom matchTimeKw headers
    rcases h2 with h | h
    · rw [if_pos h]; decide
    · rw [if_neg (by omega)]; exact h
  · have h2 : kwNoteIdx headers = -1 ∨ 0 ≤ kwNoteIdx headers :=
      findIndexI_dom matchNoteKw headers
    rcases h2 with h | h
    · rw [if_pos h]; decide
    · rw [if_neg (by omega)]; exact h
  · have h2 : kwRecvIdx headers = -1 ∨ 0 ≤ kwRecvIdx headers :=
      findIndexI_dom matchRecvKw headers
    rcases h2 with h | h
    · rw [if_pos h]; decide
    · rw [if_neg (by omega)]; exact h
  · intro h
    rw [sniffPair_snd_keep headers rows h, if_neg h]
  · intro h
    rw [sniffPair_fst_keep headers rows h, if_neg h]
  · intro h
    rw [if_pos h]
  · intro h
    rw [if_pos h]
  · intro h
    rw [if_pos h]
  · intro h
    rw [if_pos h]
  · intro h
    rw [if_pos h]

/-- Header list of the C6 witness. -/
def hdrsC6 : List Str := [strL ("date"), strL ("amount")]

/-- Parsed rows of the C6 witness. -/
def rowsC6 : List (List Str) := [hdrsC6, [strL ("01/01/2024"), strL ("50")]]

/-- Witness for C6 at a concrete header row: the keyword-matched amount
column is kept, and the note role falls back to its default index 6. -/
theorem C6_witness :
    (inferRoles hdrsC6 rowsC6).amtIdx = kwAmtIdx hdrsC6
      ∧ (inferRoles hdrsC6 rowsC6).noteIdx = 6 :=
  ⟨(C6_role_inference hdrsC6 rowsC6).2.1 (by decide),
   (C6_role_inference hdrsC6 rowsC6).2.2.2.2.2.2.1 (by decide)⟩

/-- Claim C5 (amended): for a parsed row with at least two cells, the
record builder emits no record for the row iff either the skip rule fires
(role-mapped date cell empty AND computed amount exactly zero) or the
row's resolved date is an Invalid Date value — in the latter case
`toISOString` throws and the whole source is aborted. -/
theorem C5_skip_rule (roles : RoleIdx) (override : Option Int) (srcIdx : Nat)
    (label : Str) (now : Int) (i : Nat) (row : List Str)
    (hlen : 2 ≤ row.length) :
    (∀ t, processRow roles override srcIdx label now i row ≠ RowOutcome.emitted t)
    ↔ (List.isEmpty (getCell row roles.dateIdx) = true
        ∧ cleanAmount (amtCell row roles) = JSNum.fin (qMk 0 1))
      ∨ resolveRowDate override (getCell row roles.dateIdx)
          (getCell row roles.timeIdx) now = none := by
  unfold processRow
  rw [if_neg (by omega)]
  by_cases hskip : List.isEmpty (getCell row roles.dateIdx) = true
      ∧ cleanAmount (amtCell row roles) = JSNum.fin (qMk 0 1)
  · rw [if_pos hskip]
    constructor
    · intro _; exact Or.inl hskip
    · intro _ t h; exact RowOutcome.noConfusion h
  · rw [if_neg hskip]
    cases hres : resolveRowDate override (getCell row roles.dateIdx)
        (getCell row roles.timeIdx) now with
    | none =>
      constructor
      · intro _; exact Or.inr rfl
      · intro _ t h; exact RowOutcome.noConfusion h
    | some ts =>
      constructor
      · intro hall; exact absurd rfl (hall _)
      · intro hr
        rcases hr with h | h
        · exact absurd h hskip
        · exact absurd h (by simp)

/-- The role map used by the C5 witness and counterexample (the indices
inferred for a `date,amount` header). -/
def rolesC5 : RoleIdx :=
  { amtIdx := 1, dateIdx := 0, timeIdx := 5, noteIdx := 6, receiverIdx := 2 }

/-- The C5 witness row: empty date cell and amount `0`. -/
def rowC5 : List Str := [[], strL ("0")]

/-- Witness for C5: a two-cell row with an empty date cell and zero amount
satisfies the skip-side of the amended equivalence. -/
theorem C5_witness :
    (List.isEmpty (getCell rowC5 rolesC5.dateIdx) = true
      ∧ cleanAmount (amtCell rowC5 rolesC5) = JSNum.fin (qMk 0 1))
    ∨ resolveRowDate none (getCell rowC5 rolesC5.dateIdx)
        (getCell rowC5 rolesC5.timeIdx) 0 = none :=
  (C5_skip_rule rolesC5 none 0 [] 0 1 rowC5 (by decide)).mp
    (fun t h => by
      have hk : processRow rolesC5 none 0 [] 0 1 rowC5 = RowOutcome.skipped := by decide
      rw [hk] at h
      exact RowOutcome.noConfusion h)

/-- The C5 counterexample row: a nonempty (but malformed) date cell and a
nonzero amount. -/
def rowC5x : List Str := [strL ("a/1/2024"), strL ("5")]

/-- Claim C5, counterexample: a two-cell row whose date cell is nonempty
and whose amount is nonzero — which per the claim must be emitted — is NOT
emitted: its resolved date is invalid, so the loop body throws (and the
whole source is aborted), falsifying the claimed equivalence. -/
theorem C5_counterexample :
    processRow rolesC5 none 0 [] 0 1 rowC5x = RowOutcome.threw
    ∧ 2 ≤ rowC5x.length
    ∧ ¬(List.isEmpty (getCell rowC5x rolesC5.dateIdx) = true
        ∧ cleanAmount (amtCell rowC5x rolesC5) = JSNum.fin (qMk 0 1)) := by
  exact ⟨by decide, by decide, by decide⟩

/-- A quote in plain state opens a quoted field. -/
theorem stepPlain_quote (cv : Str) (cr : List Str) (rows : List (List Str)) (rest : Str) :
    parseCSVAux CsvSt.plain cv cr rows ('"' :: rest) =
      parseCSVAux CsvSt.inQuotes cv cr rows rest := by
  simp [parseCSVAux]

/-- An unquoted comma ends the current cell (trimmed). -/
theorem stepPlain_comma (cv : Str) (cr : List Str) (rows : List (List Str)) (rest : Str) :
    parseCSVAux CsvSt.plain cv cr rows (',' :: rest) =
      parseCSVAux CsvSt.plain [] (cr ++ [jsTrim cv]) rows rest := by
  simp [parseCSVAux]

/-- An ordinary character in plain state is appended to the cell. -/
theorem stepPlain_other (c : Char) (h1 : c ≠ '"') (h2 : c ≠ ',') (h3 : c ≠ '\n')
    (h4 : c ≠ '\r') (cv : Str) (cr : List Str) (rows : List (List Str)) (rest : Str) :
    parseCSVAux CsvSt.plain cv cr rows (c :: rest) =
      parseCSVAux CsvSt.plain (cv ++ [c]) cr rows rest := by
  simp [parseCSVAux, h1, h2, h3, h4]

/-- A quote inside a quoted field defers to the next character. -/
theorem stepInQ_quote (cv : Str) (cr : List Str) (rows : List (List Str)) (rest : Str) :
    parseCSVAux CsvSt.inQuotes cv cr rows ('"' :: rest) =
      parseCSVAux CsvSt.afterQuote cv cr rows rest := by
  simp [parseCSVAux]

/-- An ordinary character (also commas and newlines) inside a quoted
field is appended verbatim. -/
theorem stepInQ_other (c : Char) (h1 : c ≠ '"') (h2 : c ≠ '\r')
    (cv : Str) (cr : List Str) (rows : List (List Str)) (rest : Str) :
    parseCSVAux CsvSt.inQuotes cv cr rows (c :: rest) =
      parseCSVAux CsvSt.inQuotes (cv ++ [c]) cr rows rest := by
  simp [parseCSVAux, h1, h2]

/-- A doubled quote emits one literal quote and stays inside the field. -/
theorem stepAfterQ_quote (cv : Str) (cr : List Str) (rows : List (List Str)) (rest : Str) :
    parseCSVAux CsvSt.afterQuote cv cr rows ('"' :: rest) =
      parseCSVAux CsvSt.inQuotes (cv ++ ['"']) cr rows rest := by
  simp [parseCSVAux]

/-- When the character after a closing quote is not another quote, the
pending state behaves exactly like the plain state. -/
theorem afterQuote_eq_plain (l : Str) (hd : l.head? ≠ some '"')
    (cv : Str) (cr : List Str) (rows : List (List Str)) :
    parseCSVAux CsvSt.afterQuote cv cr rows l = parseCSVAux CsvSt.plain cv cr rows l := by
  cases l with
  | nil => rfl
  | cons c rest =>
    have hc : ¬(c = '"') := by
      intro h; exact hd (by rw [h]; rfl)
    simp only [parseCSVAux]
    rw [if_neg hc, if_neg hc]

/-- Consuming an unquoted serialized cell appends it to the current
value. -/
theorem consumePlain (p : Str)
    (hp : ∀ x ∈ p, x ≠ '"' ∧ x ≠ ',' ∧ x ≠ '\n' ∧ x ≠ '\r') :
    ∀ (cv : Str) (cr : List Str) (rows : List (List Str)) (rest : Str),
      parseCSVAux CsvSt.plain cv cr rows (p ++ rest) =
        parseCSVAux CsvSt.plain (cv ++ p) cr rows rest := by
  induction p with
  | nil => intro cv cr rows rest; simp
  | cons x t ih =>
    intro cv cr rows rest
    have hx := hp x (List.mem_cons_self x t)
    have ht : ∀ y ∈ t, y ≠ '"' ∧ y ≠ ',' ∧ y ≠ '\n' ∧ y ≠ '\r' :=
      fun y hy => hp y (List.mem_cons_of_mem x hy)
    rw [List.cons_append, stepPlain_other x hx.1 hx.2.1 hx.2.2.1 hx.2.2.2,
      ih ht (cv ++ [x]) cr rows rest, List.append_assoc]
    rfl

/-- Consuming an escaped (quote-doubled) cell body up to its closing
quote appends the original body to the current value. -/
theorem consumeQuoted (c : Str) (hc : '\r' ∉ c) :
    ∀ (cv : Str) (cr : List Str) (rows : List (List Str)) (rest : Str),
      parseCSVAux CsvSt.inQuotes cv cr rows (escQuotes c ++ '"' :: rest) =
        parseCSVAux CsvSt.afterQuote (cv ++ c) cr rows rest := by
  induction c with
  | nil =>
    intro cv cr rows rest
    rw [show escQuotes [] = [] from rfl, List.nil_append, stepInQ_quote, List.append_nil]
  | cons x t ih =>
    intro cv cr rows rest
    have hxr : x ≠ '\r' := by
      intro h; exact hc (by rw [h]; exact List.mem_cons_self _ _)
    have ht : '\r' ∉ t := fun h => hc (List.mem_cons_of_mem x h)
    by_cases hq : x = '"'
    · subst hq
      rw [show escQuotes ('"' :: t) = '"' :: '"' :: escQuotes t from by simp [escQuotes]]
      rw [List.cons_append, List.cons_append, stepInQ_quote, stepAfterQ_quote,
        ih ht (cv ++ ['"']) cr rows rest, List.append_assoc]
      rfl
    · rw [show escQuotes (x :: t) = x :: escQuotes t from by simp [escQuotes, hq]]
      rw [List.cons_append, stepInQ_other x hq hxr,
        ih ht (cv ++ [x]) cr rows rest, List.append_assoc]
      rfl

/-- Consuming one serialized cell (quoted or not) appends the original
cell to the current value, provided the cell has no carriage return and
the remainder does not begin with a quote. -/
theorem consumeCell (c : Str) (hcr : '\r' ∉ c) (rest : Str)
    (hrest : rest.head? ≠ some '"')
    (cv : Str) (cr : List Str) (rows : List (List Str)) :
    parseCSVAux CsvSt.plain cv cr rows (quoteCell c ++ rest) =
      parseCSVAux CsvSt.plain (cv ++ c) cr rows rest := by
  unfold quoteCell
  split_ifs with hneed
  · rw [show ('"' :: (escQuotes c ++ ['"'])) ++ rest
        = '"' :: (escQuotes c ++ '"' :: rest) from by simp]
    rw [stepPlain_quote, consumeQuoted c hcr cv cr rows rest,
      afterQuote_eq_plain rest hrest]
  · have hnc : c.contains ',' ≠ true ∧ c.contains '"' ≠ true
        ∧ c.contains '\n' ≠ true := by
      refine ⟨fun h => hneed (by simp only [Bool.or_eq_true]; exact Or.inl (Or.inl h)),
        fun h => hneed (by simp only [Bool.or_eq_true]; exact Or.inl (Or.inr h)),
        fun h => hneed (by simp only [Bool.or_eq_true]; exact Or.inr h)⟩
    have hp : ∀ x ∈ c, x ≠ '"' ∧ x ≠ ',' ∧ x ≠ '\n' ∧ x ≠ '\r' := by
      intro x hx
      exact ⟨fun h => hnc.2.1 (List.elem_iff.mpr (h ▸ hx)),
        fun h => hnc.1 (List.elem_iff.mpr (h ▸ hx)),
        fun h => hnc.2.2 (List.elem_iff.mpr (h ▸ hx)),
        fun h => hcr (h ▸ hx)⟩
    exact consumePlain c hp cv cr rows rest

/-- Scanning a serialized row of cells ends the input with precisely
those cells appended to the current row. -/
theorem parseRow_serialize (cells : List Str)
    (hok : ∀ c ∈ cells, jsTrim c = c ∧ '\r' ∉ c) :
    cells ≠ [] →
    ∀ (cr : List Str) (rows : List (List Str)),
      parseCSVAux CsvSt.plain [] cr rows (serializeRow cells) =
        rowFlush (cr ++ cells) rows := by
  induction cells with
  | nil => intro h; exact absurd rfl h
  | cons c cs ih =>
    intro _ cr rows
    have hc := hok c (List.mem_cons_self _ _)
    cases cs with
    | nil =>
      rw [show serializeRow [c] = quoteCell c from rfl,
        show quoteCell c = quoteCell c ++ [] from (List.append_nil _).symm,
        consumeCell c hc.2 [] (by simp) [] cr rows, List.nil_append]
      show csvFinish c cr rows = rowFlush (cr ++ [c]) rows
      unfold csvFinish
      rw [hc.1]
      by_cases h1 : (!c.isEmpty || !cr.isEmpty) = true
      · rw [if_pos h1]
      · rw [if_neg h1]
        simp only [Bool.or_eq_true, Bool.not_eq_true', not_or] at h1
        have hce : c = [] := by
          cases c with
          | nil => rfl
          | cons a b => simp at h1
        have hcre : cr = [] := by
          cases cr with
          | nil => rfl
          | cons a b => simp at h1
        subst hce
        subst hcre
        simp [rowFlush]
    | cons c2 cs2 =>
      have hok2 : ∀ x ∈ c2 :: cs2, jsTrim x = x ∧ '\r' ∉ x :=
        fun x hx => hok x (List.mem_cons_of_mem _ hx)
      rw [show serializeRow (c :: c2 :: cs2)
            = quoteCell c ++ ',' :: serializeRow (c2 :: cs2) from rfl,
        consumeCell c hc.2 (',' :: serializeRow (c2 :: cs2)) (by simp) [] cr rows,
        List.nil_append, stepPlain_comma c cr rows (serializeRow (c2 :: cs2)),
        hc.1, ih hok2 (by simp) (cr ++ [c]) rows, List.append_assoc]
      rfl

/-- Claim C8 (amended): serializing a row per the standard CSV convention
and parsing it back reproduces the cells exactly, provided every cell is
already trimmed (the parser trims each cell), no cell contains a carriage
return (the parser discards them unconditionally), and not every cell is
empty (the parser drops all-empty rows). -/
theorem C8_roundtrip (cells : List Str)
    (hok : ∀ c ∈ cells, jsTrim c = c ∧ '\r' ∉ c)
    (hne : cells.any (fun c => !c.isEmpty) = true) :
    parseCSV (serializeRow cells) = [cells] := by
  have hcells : cells ≠ [] := by
    intro h
    subst h
    simp at hne
  unfold parseCSV
  rw [parseRow_serialize cells hok hcells [] []]
  simp [rowFlush, hne]

/-- Claim C8, counterexample: the single-cell row `" a"` (leading
space) serializes to itself, but parsing trims the cell to `"a"`, so the
round trip does not reproduce the original cells. -/
theorem C8_counterexample :
    parseCSV (serializeRow [strL (" a")]) = [[strL ("a")]]
    ∧ parseCSV (serializeRow [strL (" a")]) ≠ [[strL (" a")]] := by
  exact ⟨by decide, by decide⟩

/-- Witness for C8 on a row with an embedded comma, quote, newline and an
empty trailing cell. -/
theorem C8_witness :
    parseCSV (serializeRow [strL ("a,b"), strL ("c\"d"), strL ("x\ny"), strL ("")]) =
      [[strL ("a,b"), strL ("c\"d"), strL ("x\ny"), strL ("")]] :=
  C8_roundtrip _ (by decide) (by decide)
